import Mathlib

/-!
Verification of the arequest HTTP client (src/arequest/client.py) against its
natural-language specification.  The Python source is shallowly embedded:
bytes are lists of naturals, the stateful connection pool becomes explicit
state passing on a `PoolState` structure, fallible operations return
`Except Err`, and the asyncio stream reader is modelled as a finite byte
list consumed by pure read operations.
-/

set_option autoImplicit false

namespace Arequest

/-- Error values surfaced by the client, mirroring the Python exceptions the
source actually raises: asyncio's IncompleteReadError, the built-in
ValueError and IndexError, and RuntimeError carrying its message string. -/
inductive Err where
  | incompleteReadError
  | valueError
  | indexError
  | runtimeError (msg : String)
deriving DecidableEq, Repr

/-! ## Connection pool (`_ConnectionPool` in client.py)

A live `asyncio.StreamWriter` is modelled by `Conn`: an identity plus the
value of `writer.is_closing()` at the moment of the call being modelled.
The idle list `_available` keeps `(connection, created)` pairs exactly as
the source keeps `(reader, writer, created)` triples, newest at the head
(the source does `self._available.insert(0, ...)`). -/

/-- Socket connection: an identity and the current is_closing state of its
writable half. -/
structure Conn where
  id : Nat
  is_closing : Bool
deriving DecidableEq, Repr

/-- State of `_ConnectionPool`: idle list `_available` (with creation
timestamps), in-use set `_in_use`, closed flag, `max_size`,
`max_idle_time`. -/
structure PoolState where
  available : List (Conn × Nat)
  in_use : List Conn
  closed : Bool
  max_size : Nat
  max_idle_time : Nat
  host : String
  port : Nat
  ssl_context : Option (Bool × Bool)
deriving DecidableEq, Repr

/-- Translation of `_ConnectionPool.release` (client.py lines 294-309).
Returns the new pool state together with the list of writers on which
`writer.close()` was called during this release. -/
def PoolState.release (p : PoolState) (c : Conn) (keep_alive : Bool) (now : Nat) :
    PoolState × List Conn :=
  let inUse := p.in_use.erase c
  if p.closed = true ∨ keep_alive = false ∨ c.is_closing = true then
    ({ p with in_use := inUse }, if c.is_closing then [] else [c])
  else if p.available.length < p.max_size then
    ({ p with in_use := inUse, available := (c, now) :: p.available }, [])
  else
    ({ p with in_use := inUse }, [c])

/-- Result of an acquire: either an idle connection was reused, or the pool
must open a fresh connection (the I/O part of `acquire`, lines 240-254). -/
inductive AcquireOutcome where
  | reused (c : Conn)
  | mustCreate
deriving DecidableEq, Repr

/-- Translation of the idle-scan loop of `_ConnectionPool.acquire`
(client.py lines 227-238): pop entries from the front; the first entry
whose writer is not closing and whose age is within max_idle_time is
returned; stale poppped entries are closed.  Yields the chosen connection
(if any), the remaining idle list, and the writers closed along the way. -/
def scanIdle (now maxIdle : Nat) : List (Conn × Nat) → Option Conn × List (Conn × Nat) × List Conn
  | [] => (none, [], [])
  | (c, created) :: rest =>
    if c.is_closing = false ∧ now - created ≤ maxIdle then
      (some c, rest, [])
    else
      let r := scanIdle now maxIdle rest
      (r.1, r.2.1, (if c.is_closing then [] else [c]) ++ r.2.2)

/-- Translation of `_ConnectionPool.acquire` (client.py lines 220-254) up to
the point where a new connection would be opened; the actual socket open is
I/O and is represented by the `mustCreate` outcome. -/
def PoolState.acquire (p : PoolState) (now : Nat) :
    Except Err (AcquireOutcome × PoolState × List Conn) :=
  if p.closed = true then
    .error (.runtimeError "Pool is closed")
  else
    match scanIdle now p.max_idle_time p.available with
    | (some c, rem, closedW) =>
      .ok (.reused c, { p with available := rem, in_use := c :: p.in_use }, closedW)
    | (none, _, closedW) =>
      .ok (.mustCreate, { p with available := [] }, closedW)

/-- Translation of `_ConnectionPool.close` (client.py lines 311-323). -/
def PoolState.close (p : PoolState) : PoolState :=
  { p with closed := true, available := [], in_use := [] }

/-! ## Byte-string utilities

Python bytes objects are modelled as lists of naturals.  The helpers below
translate the bytes methods the source uses: find, split (with and without
maxsplit), strip, lower, and latin-1 / ASCII codecs. -/

/-- Index of the first occurrence of the pattern in the list, as in Python
bytes.find (but returning an Option instead of -1). -/
def firstSubIdx (l pat : List Nat) : Option Nat :=
  if pat.isPrefixOf l then some 0
  else match l with
    | [] => none
    | _ :: r => (firstSubIdx r pat).map (· + 1)

/-- Python bytes.find: index of the first occurrence, or -1 when absent. -/
def pyFind (l pat : List Nat) : Int :=
  match firstSubIdx l pat with
  | some i => (i : Int)
  | none => -1

/-- Python slice l[a:b] with possibly negative bounds and clamping. -/
def pySlice (l : List Nat) (a b : Int) : List Nat :=
  let len : Int := l.length
  let lo : Int := if a < 0 then max 0 (len + a) else min a len
  let hi : Int := if b < 0 then max 0 (len + b) else min b len
  (l.take hi.toNat).drop lo.toNat

/-- Python bytes.split(sep) for a non-empty separator, with fuel (the fuel
passed by splitAll always suffices). -/
def splitAllAux (sep : List Nat) : Nat → List Nat → List (List Nat)
  | 0, l => [l]
  | fuel + 1, l =>
    match firstSubIdx l sep with
    | some i => l.take i :: splitAllAux sep fuel (l.drop (i + sep.length))
    | none => [l]

/-- Python bytes.split(sep) with no maxsplit. -/
def splitAll (l sep : List Nat) : List (List Nat) :=
  splitAllAux sep (l.length + 1) l

/-- Python bytes.split(sep, maxsplit) for a single-byte separator, as used on
the status line: status_line.split(b' ', 2). -/
def splitMax (sep : Nat) : Nat → List Nat → List (List Nat)
  | 0, l => [l]
  | ms + 1, l =>
    match l.findIdx? (· = sep) with
    | some i => l.take i :: splitMax sep ms (l.drop (i + 1))
    | none => [l]

/-- ASCII whitespace recognised by Python strip and int(). -/
def isPySpace (b : Nat) : Bool :=
  b = 9 ∨ b = 10 ∨ b = 11 ∨ b = 12 ∨ b = 13 ∨ b = 32

/-- Python bytes.strip(): drop ASCII whitespace from both ends. -/
def stripB (l : List Nat) : List Nat :=
  ((l.dropWhile isPySpace).reverse.dropWhile isPySpace).reverse

/-- Python bytes.lower(): map ASCII A-Z to a-z, leave all else. -/
def lowerB (l : List Nat) : List Nat :=
  l.map fun b => if 65 ≤ b ∧ b ≤ 90 then b + 32 else b

/-- Python substring test: b"pat" in l. -/
def containsSub (l pat : List Nat) : Bool :=
  (firstSubIdx l pat).isSome

/-- Latin-1 decoding: each byte becomes the character of its code point. -/
def latin1Dec (l : List Nat) : String :=
  ⟨l.map fun b => Char.ofNat b⟩

/-- Byte encoding of a string via character code points; agrees with both
the ascii and latin-1 codecs on the strings the client emits. -/
def strBytes (s : String) : List Nat :=
  s.data.map Char.toNat

/-- UTF-8 encoding of one code point. -/
def utf8Char (n : Nat) : List Nat :=
  if n < 128 then [n]
  else if n < 2048 then [192 + n / 64, 128 + n % 64]
  else if n < 65536 then [224 + n / 4096, 128 + (n / 64) % 64, 128 + n % 64]
  else [240 + n / 262144, 128 + (n / 4096) % 64, 128 + (n / 64) % 64, 128 + n % 64]

/-- Python str.encode of a string to UTF-8 bytes. -/
def utf8Encode (s : String) : List Nat :=
  s.data.flatMap fun c => utf8Char c.toNat

/-! ## Python int() parsing

int(x) and int(x, 16) accept optional surrounding ASCII whitespace, an
optional sign, for base 16 an optional 0x prefix, and digits with
underscores allowed only between digits (or directly after the prefix). -/

/-- Digit value of a byte in the given base, if it is a digit. -/
def digitVal (base b : Nat) : Option Nat :=
  if 48 ≤ b ∧ b ≤ 57 ∧ b - 48 < base then some (b - 48)
  else if base = 16 ∧ 97 ≤ b ∧ b ≤ 102 then some (b - 87)
  else if base = 16 ∧ 65 ≤ b ∧ b ≤ 70 then some (b - 55)
  else none

/-- Validity of a digit string with CPython underscore rules; allowU tells
whether an underscore may appear at the current position. -/
def digitsOk (base : Nat) : Bool → List Nat → Bool
  | _, [] => false
  | _, [c] => (digitVal base c).isSome
  | allowU, c :: r =>
    if (digitVal base c).isSome then digitsOk base true r
    else if c = 95 ∧ allowU then digitsOk base false r
    else false

/-- Numeric value of a digit string, skipping underscores. -/
def digitsVal (base : Nat) (l : List Nat) : Nat :=
  l.foldl (fun acc c => match digitVal base c with
    | some d => acc * base + d
    | none => acc) 0

/-- Translation of Python int(bytes_or_str, base) for base 10 and 16,
returning none where CPython raises ValueError. -/
def parseIntB (base : Nat) (l : List Nat) : Option Int :=
  let s := stripB l
  let (neg, s1) : Bool × List Nat :=
    match s with
    | 45 :: r => (true, r)
    | 43 :: r => (false, r)
    | _ => (false, s)
  let (pfx, s2) : Bool × List Nat :=
    if base = 16 then
      match s1 with
      | 48 :: 120 :: r => (true, r)
      | 48 :: 88 :: r => (true, r)
      | _ => (false, s1)
    else (false, s1)
  if digitsOk base pfx s2 then
    some (if neg then -(digitsVal base s2 : Int) else (digitsVal base s2 : Int))
  else none

/-- Translation of Python int(str_value) applied to a decoded header value. -/
def parseIntS (s : String) : Option Int :=
  parseIntB 10 (s.data.map Char.toNat)

/-! ## Stream reader (asyncio.StreamReader on a finite byte stream)

The response byte stream is a finite list followed by EOF.  Each operation
returns the data read and the remaining stream. -/

/-- CRLF byte pair. -/
def crlf : List Nat := [13, 10]

/-- Double CRLF terminating the header block. -/
def crlf2 : List Nat := [13, 10, 13, 10]

/-- asyncio readuntil(sep): data up to and including the separator, or
IncompleteReadError when EOF arrives before the separator is seen. -/
def readuntil (sep s : List Nat) : Except Err (List Nat × List Nat) :=
  match firstSubIdx s sep with
  | some i => .ok (s.take (i + sep.length), s.drop (i + sep.length))
  | none => .error .incompleteReadError

/-- asyncio readline(): data up to and including the first LF; at EOF the
partial line (possibly empty) is returned without error. -/
def readline (s : List Nat) : List Nat × List Nat :=
  match s.findIdx? (· = 10) with
  | some i => (s.take (i + 1), s.drop (i + 1))
  | none => (s, [])

/-- asyncio readexactly(n): exactly n bytes, or IncompleteReadError when
EOF arrives first. -/
def readexactly (n : Nat) (s : List Nat) : Except Err (List Nat × List Nat) :=
  if s.length < n then .error .incompleteReadError
  else .ok (s.take n, s.drop n)

/-! ## Response parser (`_SimpleHTTPParser` in client.py) -/

/-- Accumulated framing state of the header loop: the headers dict plus the
_content_length, _chunked and keep_alive fields of the parser. -/
structure HeaderInfo where
  headers : List (String × String)
  content_length : Option Int
  chunked : Bool
  keep_alive : Bool
deriving DecidableEq, Repr

/-- Initial parser state (client.py lines 331-338). -/
def initHeaderInfo : HeaderInfo :=
  { headers := [], content_length := none, chunked := false, keep_alive := true }

/-- Python dict assignment d[k] = v on an association list: replace the
value in place when the key exists, else append. -/
def dictSet (h : List (String × String)) (k v : String) : List (String × String) :=
  if (h.map Prod.fst).contains k then
    h.map fun p => if p.1 = k then (k, v) else p
  else h ++ [(k, v)]

/-- Translation of the header-line loop of `_SimpleHTTPParser.parse`
(client.py lines 354-371): stop at the first empty line, ignore lines whose
first colon is absent or at position 0, store each header with dict
semantics, and track the three framing-relevant headers byte-wise. -/
def processHeaderLines : List (List Nat) → HeaderInfo → Except Err HeaderInfo
  | [], st => .ok st
  | line :: rest, st =>
    if line = [] then .ok st
    else
      match firstSubIdx line [58] with
      | some colon =>
        if 0 < colon then
          let key := latin1Dec (line.take colon)
          let value := latin1Dec (stripB (line.drop (colon + 1)))
          let st1 := { st with headers := dictSet st.headers key value }
          let kl := lowerB (line.take colon)
          if kl = strBytes "content-length" then
            match parseIntS value with
            | some n => processHeaderLines rest { st1 with content_length := some n }
            | none => .error .valueError
          else if kl = strBytes "transfer-encoding" then
            processHeaderLines rest
              { st1 with chunked :=
                  st1.chunked ∨ containsSub (lowerB (line.drop (colon + 1))) (strBytes "chunked") }
          else if kl = strBytes "connection" then
            processHeaderLines rest
              { st1 with keep_alive :=
                  st1.keep_alive ∧ ¬ containsSub (lowerB (line.drop (colon + 1))) (strBytes "close") }
          else processHeaderLines rest st1
        else processHeaderLines rest st
      | none => processHeaderLines rest st

/-- Parsed status line and framing state of one header block, i.e. the
header phase of `_SimpleHTTPParser.parse` (client.py lines 343-371). -/
def parseHeaderBlock (hb : List Nat) : Except Err (Int × String × HeaderInfo) :=
  let statusEnd := pyFind hb crlf
  let statusLine := pySlice hb 0 statusEnd
  let parts := splitMax 32 2 statusLine
  match parts.get? 1 with
  | none => .error .indexError
  | some p1 =>
    match parseIntB 10 p1 with
    | none => .error .valueError
    | some code =>
      let reason := if 2 < parts.length then latin1Dec (parts.getD 2 []) else ""
      let lines := splitAll (pySlice hb (statusEnd + 2) (-4)) crlf
      (processHeaderLines lines initHeaderInfo).map fun info => (code, reason, info)

/-- Remaining stream after a readline is strictly shorter when the stream
was non-empty. -/
theorem readline_snd_lt (s : List Nat) (h : s ≠ []) :
    (readline s).2.length < s.length := by
  have hpos : 0 < s.length := List.length_pos.mpr h
  unfold readline
  cases hfi : s.findIdx? (· = 10) with
  | none => simpa using hpos
  | some i => simp [List.length_drop]; omega

/-- Remaining stream after a successful readexactly is no longer than the
input stream. -/
theorem readexactly_ok_le (n : Nat) (s b r : List Nat)
    (h : readexactly n s = .ok (b, r)) : r.length ≤ s.length := by
  unfold readexactly at h
  split at h
  · exact absurd h (by simp)
  · simp at h
    have : r = s.drop n := h.2.symm
    subst this
    simp [List.length_drop]

/-- Loop body of `_SimpleHTTPParser._read_chunked` (client.py lines
378-388), with a fuel parameter bounding the number of iterations: read a
hex chunk-size line (int of the part before any semicolon), stop on size 0
after consuming the trailing line, else read the chunk and its CRLF and
loop.  Each continuing iteration consumes at least one byte of the stream
(a successfully parsed size line is non-empty), so any fuel above the
stream length makes the zero-fuel branch unreachable; this is proved as
readChunkedF_fuel below. -/
def readChunkedF : Nat → List Nat → List (List Nat) →
    Except Err (List (List Nat) × List Nat)
  | 0, _, _ => .error .valueError
  | fuel + 1, s, acc =>
    match parseIntB 16 ((splitAll (stripB (readline s).1) [59]).headD []) with
    | none => .error .valueError
    | some size =>
      if size = 0 then
        .ok (acc, (readline (readline s).2).2)
      else if size < 0 then
        .error .valueError
      else
        match readexactly size.toNat (readline s).2 with
        | .error e => .error e
        | .ok (chunk, r2) =>
          match readexactly 2 r2 with
          | .error e => .error e
          | .ok (_, r3) => readChunkedF fuel r3 (acc ++ [chunk])

/-- Translation of `_SimpleHTTPParser._read_chunked`: the loop run with
enough fuel to be exact. -/
def readChunked (s : List Nat) (acc : List (List Nat)) :
    Except Err (List (List Nat) × List Nat) :=
  readChunkedF (s.length + 1) s acc

/-- Parsing an empty byte string as an integer fails, as int(b'') does. -/
theorem parseIntB_nil (base : Nat) : parseIntB base [] = none := by
  unfold parseIntB
  simp [stripB, digitsOk]

/-- Size line of the empty stream fails to parse. -/
theorem sizeline_nil :
    parseIntB 16 ((splitAll (stripB (readline []).1) [59]).headD []) = none := rfl

/-- Fuel irrelevance: any two fuels above the stream length give the same
result, so readChunked computes the limit of the source loop. -/
theorem readChunkedF_fuel : ∀ (f1 f2 : Nat) (s : List Nat) (acc : List (List Nat)),
    s.length < f1 → s.length < f2 → readChunkedF f1 s acc = readChunkedF f2 s acc := by
  intro f1
  induction f1 with
  | zero =>
    intro f2 s acc h1 _
    exact absurd h1 (Nat.not_lt_zero _)
  | succ f ih =>
    intro f2 s acc h1 h2
    cases f2 with
    | zero => exact absurd h2 (Nat.not_lt_zero _)
    | succ g =>
      show (match parseIntB 16 ((splitAll (stripB (readline s).1) [59]).headD []) with
        | none => Except.error Err.valueError
        | some size =>
          if size = 0 then Except.ok (acc, (readline (readline s).2).2)
          else if size < 0 then Except.error Err.valueError
          else
            match readexactly size.toNat (readline s).2 with
            | .error e => .error e
            | .ok (chunk, r2) =>
              match readexactly 2 r2 with
              | .error e => .error e
              | .ok (_, r3) => readChunkedF f r3 (acc ++ [chunk])) =
        (match parseIntB 16 ((splitAll (stripB (readline s).1) [59]).headD []) with
        | none => Except.error Err.valueError
        | some size =>
          if size = 0 then Except.ok (acc, (readline (readline s).2).2)
          else if size < 0 then Except.error Err.valueError
          else
            match readexactly size.toNat (readline s).2 with
            | .error e => .error e
            | .ok (chunk, r2) =>
              match readexactly 2 r2 with
              | .error e => .error e
              | .ok (_, r3) => readChunkedF g r3 (acc ++ [chunk]))
      cases hp : parseIntB 16 ((splitAll (stripB (readline s).1) [59]).headD []) with
      | none => rfl
      | some size =>
        by_cases hz : size = 0
        · simp [hz]
        · by_cases hneg : size < 0
          · simp [hz, hneg]
          · cases he2 : readexactly size.toNat (readline s).2 with
            | error e => simp [hz, hneg, he2]
            | ok p =>
              obtain ⟨chunk, r2⟩ := p
              cases he3 : readexactly 2 r2 with
              | error e => simp [hz, hneg, he2, he3]
              | ok q =>
                obtain ⟨x, r3⟩ := q
                simp only [hz, hneg, he2, he3, if_neg]
                have hs : s ≠ [] := by
                  intro h
                  subst h
                  rw [sizeline_nil] at hp
                  exact absurd hp (by simp)
                have h0 := readline_snd_lt s hs
                have hA := readexactly_ok_le _ _ _ _ he2
                have hB := readexactly_ok_le _ _ _ _ he3
                exact ih g r3 (acc ++ [chunk]) (by omega) (by omega)

/-- Join of the chunk list, translating the final line of _read_chunked:
join when more than one chunk, the single chunk when exactly one, empty
bytes when none. -/
def joinChunks (cs : List (List Nat)) : List Nat :=
  if 1 < cs.length then cs.flatten
  else match cs with
    | c :: _ => c
    | [] => []

/-- Output of the parser: the fields of `_SimpleHTTPParser` read by
`Session.request` after a successful parse. -/
structure ParserOut where
  status_code : Int
  reason : String
  headers : List (String × String)
  body : List Nat
  keep_alive : Bool
deriving DecidableEq, Repr

/-- Translation of `_SimpleHTTPParser.parse` (client.py lines 340-376):
read the header block, parse status line and headers, then read the body
by chunked framing when Transfer-Encoding said chunked, else by
Content-Length when that is set and non-zero (Python truthiness), else
leave the body empty. -/
def parse (s : List Nat) : Except Err ParserOut :=
  match readuntil crlf2 s with
  | .error e => .error e
  | .ok (hb, rest) =>
    match parseHeaderBlock hb with
    | .error e => .error e
    | .ok (code, reason, info) =>
      if info.chunked then
        match readChunked rest [] with
        | .error e => .error e
        | .ok (chunks, _) =>
          .ok { status_code := code, reason := reason, headers := info.headers,
                body := joinChunks chunks, keep_alive := info.keep_alive }
      else
        match info.content_length with
        | some n =>
          if n = 0 then
            .ok { status_code := code, reason := reason, headers := info.headers,
                  body := [], keep_alive := info.keep_alive }
          else if n < 0 then .error .valueError
          else
            match readexactly n.toNat rest with
            | .error e => .error e
            | .ok (b, _) =>
              .ok { status_code := code, reason := reason, headers := info.headers,
                    body := b, keep_alive := info.keep_alive }
        | none =>
          .ok { status_code := code, reason := reason, headers := info.headers,
                body := [], keep_alive := info.keep_alive }

/-! ## Header dictionaries

Request and response headers are Python dicts: insertion ordered, unique
keys, assignment replaces in place, new keys append at the end. -/

/-- Header mapping, as the contents of a Python dict in insertion order. -/
abbrev Headers := List (String × String)

/-- Python dict lookup d[k] (first entry with the key; under the unique-key
invariant of dicts this is the entry). -/
def lookupH : Headers → String → Option String
  | [], _ => none
  | p :: r, k => if p.1 = k then some p.2 else lookupH r k

/-- Number of entries carrying the given key. -/
def countKey (h : Headers) (k : String) : Nat :=
  (h.filter fun p => p.1 = k).length

/-- Python pattern: if k not in d: d[k] = v. -/
def setDefault (h : Headers) (k v : String) : Headers :=
  if (h.map Prod.fst).contains k then h else h ++ [(k, v)]

/-- Python dict merge expression with two dicts: start from the first and
assign every entry of the second in order. -/
def mergeDict (d c : Headers) : Headers :=
  c.foldl (fun acc kv => dictSet acc kv.1 kv.2) d

/-- Header merging of Session.request (client.py lines 579-582): merge of
session defaults and per-call headers when given, else the defaults. -/
def mergeHeaders (d : Headers) (o : Option Headers) : Headers :=
  match o with
  | some hs => mergeDict d hs
  | none => d

/-! ## Body encoding (client.py lines 602-619)

The json argument is serialized with compact separators (the stdlib json
fallback path, ensure_ascii escapes applied); dict data is form-urlencoded
with quote_plus; str data is UTF-8 encoded; bytes pass through. -/

/-- JSON values accepted by the json argument. -/
inductive JsonVal where
  | jnull
  | jbool (b : Bool)
  | jint (n : Int)
  | jstr (s : String)
  | jarr (elems : List JsonVal)
  | jobj (fields : List (String × JsonVal))

/-- Lowercase hex digit character. -/
def hexDigit (n : Nat) : Char :=
  if n < 10 then Char.ofNat (48 + n) else Char.ofNat (87 + n)

/-- Uppercase hex digit character. -/
def hexDigitU (n : Nat) : Char :=
  if n < 10 then Char.ofNat (48 + n) else Char.ofNat (55 + n)

/-- Four lowercase hex digits. -/
def hex4 (n : Nat) : String :=
  ⟨[hexDigit (n / 4096 % 16), hexDigit (n / 256 % 16), hexDigit (n / 16 % 16), hexDigit (n % 16)]⟩

/-- JSON unicode escape of a code point, with a surrogate pair above the
basic multilingual plane. -/
def uEscape (n : Nat) : String :=
  if n < 65536 then "\\u" ++ hex4 n
  else "\\u" ++ hex4 (55296 + (n - 65536) / 1024) ++ "\\u" ++ hex4 (56320 + (n - 65536) % 1024)

/-- Escaping of one character inside a JSON string literal, following the
stdlib json encoder with ensure_ascii. -/
def jsonEscChar (c : Char) : String :=
  if c = Char.ofNat 34 then "\\" ++ ⟨[Char.ofNat 34]⟩
  else if c = Char.ofNat 92 then "\\\\"
  else if c = Char.ofNat 10 then "\\n"
  else if c = Char.ofNat 13 then "\\r"
  else if c = Char.ofNat 9 then "\\t"
  else if c.toNat = 8 then "\\b"
  else if c.toNat = 12 then "\\f"
  else if c.toNat < 32 ∨ 126 < c.toNat then uEscape c.toNat
  else String.singleton c

/-- Quoted JSON string literal. -/
def jsonQuoteStr (s : String) : String :=
  ⟨[Char.ofNat 34]⟩ ++ String.join (s.data.map jsonEscChar) ++ ⟨[Char.ofNat 34]⟩

mutual

/-- Compact JSON serialization, as json.dumps with separators (',', ':'). -/
def jsonDumps : JsonVal → String
  | .jnull => "null"
  | .jbool true => "true"
  | .jbool false => "false"
  | .jint n => toString n
  | .jstr s => jsonQuoteStr s
  | .jarr l => "[" ++ jsonDumpsArr l ++ "]"
  | .jobj l => "\x7b" ++ jsonDumpsObj l ++ "\x7d"

/-- Comma-joined serialization of array elements. -/
def jsonDumpsArr : List JsonVal → String
  | [] => ""
  | [x] => jsonDumps x
  | x :: y :: r => jsonDumps x ++ "," ++ jsonDumpsArr (y :: r)

/-- Comma-joined serialization of object fields. -/
def jsonDumpsObj : List (String × JsonVal) → String
  | [] => ""
  | [(k, v)] => jsonQuoteStr k ++ ":" ++ jsonDumps v
  | (k, v) :: y :: r => jsonQuoteStr k ++ ":" ++ jsonDumps v ++ "," ++ jsonDumpsObj (y :: r)

end

/-- Characters urllib.parse.quote_plus never encodes. -/
def isUrlSafe (c : Char) : Bool :=
  (c.isAlphanum ∧ c.toNat < 128) ∨ c = Char.ofNat 95 ∨ c = Char.ofNat 46 ∨
    c = Char.ofNat 45 ∨ c = Char.ofNat 126

/-- Percent-encoding of one byte, uppercase hex as urllib produces. -/
def pctByte (b : Nat) : String :=
  "%" ++ ⟨[hexDigitU (b / 16), hexDigitU (b % 16)]⟩

/-- urllib.parse.quote_plus: safe characters kept, space becomes a plus,
everything else percent-encoded bytewise over its UTF-8 encoding. -/
def quotePlus (s : String) : String :=
  String.join (s.data.map fun c =>
    if c = Char.ofNat 32 then "+"
    else if isUrlSafe c then String.singleton c
    else String.join ((utf8Char c.toNat).map pctByte))

/-- urllib.parse.urlencode over a mapping in iteration order. -/
def urlencodePairs (ps : List (String × String)) : String :=
  String.intercalate "&" (ps.map fun p => quotePlus p.1 ++ "=" ++ quotePlus p.2)

/-- Value given for the data argument: a mapping, text, or raw bytes. -/
inductive DataArg where
  | dict (pairs : List (String × String))
  | str (s : String)
  | bytes (b : List Nat)
deriving DecidableEq, Repr

/-- Translation of the body-encoding block of Session.request (client.py
lines 602-619): json wins over data, a dict is form-urlencoded, text is
UTF-8 encoded, bytes pass through; Content-Type is assigned for the json
and dict cases.  Returns the body and the updated headers. -/
def encodeBodyHeaders (jsonArg : Option JsonVal) (dataArg : Option DataArg)
    (h : Headers) : Option (List Nat) × Headers :=
  match jsonArg with
  | some v => (some (utf8Encode (jsonDumps v)), dictSet h "Content-Type" "application/json")
  | none =>
    match dataArg with
    | some (.dict ps) =>
      (some (utf8Encode (urlencodePairs ps)),
       dictSet h "Content-Type" "application/x-www-form-urlencoded")
    | some (.str s) => (some (utf8Encode s), h)
    | some (.bytes b) => (some b, h)
    | none => (none, h)

/-! ## Session (client.py lines 418-777) -/

/-- Default port rule of client.py line 566: 443 for https else 80. -/
def defaultPort (scheme : String) : Nat :=
  if scheme = "https" then 443 else 80

/-- Host header value rule of client.py line 586: bare host when the port
is 80 or 443, else host colon port. -/
def hostHeaderValue (host : String) (port : Nat) : String :=
  if port = 80 ∨ port = 443 then host else host ++ ":" ++ toString port

/-- Outcome of urllib.parse.urlparse on the request URL: the fields the
client reads. -/
structure ParsedUrl where
  scheme : String
  hostname : Option String
  port : Option Nat
  path : String
  query : String
deriving DecidableEq, Repr

/-- Port of the request, translating the Python expression parsed.port or
(443 if scheme == https else 80); a falsy (absent or zero) parsed port
falls back to the scheme default. -/
def effectivePort (u : ParsedUrl) : Nat :=
  match u.port with
  | some p => if p = 0 then defaultPort u.scheme else p
  | none => defaultPort u.scheme

/-- Translation of the default-header block of Session.request (client.py
lines 585-594): Host, Connection, Accept, Accept-Encoding and User-Agent
are set only when absent. -/
def assembleHeaders (base : Headers) (host : String) (port : Nat) : Headers :=
  setDefault (setDefault (setDefault (setDefault (setDefault base
    "Host" (hostHeaderValue host port))
    "Connection" "keep-alive")
    "Accept" "*/*")
    "Accept-Encoding" "identity")
    "User-Agent" "arequest/0.2.0"

/-- Translation of client.py lines 621-622: when the body is truthy
(present and non-empty) assign Content-Length to its byte length. -/
def finalizeCL (h : Headers) (body : Option (List Nat)) : Headers :=
  match body with
  | some b => if b ≠ [] then dictSet h "Content-Length" (toString b.length) else h
  | none => h

/-- Translation of `_SimpleHTTPBuilder.build` (client.py lines 399-415). -/
def buildBytes (method path : String) (headers : Headers) (body : Option (List Nat)) :
    List Nat :=
  strBytes method ++ [32] ++ strBytes path ++ strBytes " HTTP/1.1" ++ crlf ++
    (headers.flatMap fun p => strBytes p.1 ++ [58, 32] ++ strBytes p.2 ++ crlf) ++ crlf ++
    (match body with
     | some b => if b ≠ [] then b else []
     | none => [])

/-- Per-call arguments of Session.request that the embedding models (auth
is an external capability and is absent, i.e. None, here). -/
structure RequestArgs where
  headers : Option Headers
  params : List (String × String)
  jsonArg : Option JsonVal
  dataArg : Option DataArg

/-- Everything Session.request has computed by the time it serializes the
request and picks a pool (client.py lines 563-626). -/
structure Plan where
  method : String
  path : String
  reqHeaders : Headers
  body : Option (List Nat)
  poolKey : String × Nat × Bool
  verifySsl : Bool
  requestBytes : List Nat
deriving Repr

/-- State of a Session: closed flag, default headers, pool registry keyed
by (host, port, is_ssl), SSL context cache keyed by the verify flag (a
context is modelled by its (check_hostname, certs_required) settings),
session verify default, and the per-host limit. -/
structure SessionState where
  closed : Bool
  defaultHeaders : Headers
  pools : List ((String × Nat × Bool) × PoolState)
  sslContexts : List (Bool × (Bool × Bool))
  verify : Bool
  connector_limit_per_host : Nat
deriving Repr

/-- Configuration of the ssl.SSLContext built by `Session._get_ssl_context`
(client.py lines 500-510): with verify a default context (hostname checked,
certificates required), without verify both are off. -/
def mkSslContext (verify : Bool) : Bool × Bool :=
  if verify then (true, true) else (false, false)

/-- Translation of `Session._get_ssl_context` (client.py lines 500-510):
cached per verify flag. -/
def getSslContext (ctxs : List (Bool × (Bool × Bool))) (verify : Bool) :
    (Bool × Bool) × List (Bool × (Bool × Bool)) :=
  match ctxs.find? (fun p => p.1 = verify) with
  | some p => (p.2, ctxs)
  | none => (mkSslContext verify, ctxs ++ [(verify, mkSslContext verify)])

/-- Translation of `Session._get_pool` (client.py lines 512-523): the key
is (host, port, is_ssl); verify participates only when the pool is first
created, through the SSL context it is given. -/
def getPool (s : SessionState) (host : String) (port : Nat) (isSsl verify : Bool) :
    PoolState × SessionState :=
  let key := (host, port, isSsl)
  match s.pools.find? (fun p => p.1 = key) with
  | some p => (p.2, s)
  | none =>
    let ctx := if isSsl then getSslContext s.sslContexts verify
               else ((false, false), s.sslContexts)
    let pool : PoolState :=
      { available := [], in_use := [], closed := false,
        max_size := s.connector_limit_per_host, max_idle_time := 30,
        host := host, port := port,
        ssl_context := if isSsl then some ctx.1 else none }
    (pool, { s with pools := s.pools ++ [(key, pool)], sslContexts := ctx.2 })

/-- Translation of `Session.close` (client.py lines 762-770): idempotent;
sets the closed flag, closes every pool, clears the registry. -/
def SessionState.close (s : SessionState) : SessionState :=
  if s.closed then s else { s with closed := true, pools := [] }

/-- Translation of the pure prefix of `Session.request` (client.py lines
558-626): the closed check, URL fields, query/params handling, header
merging and defaulting, body encoding, Content-Length, request bytes and
pool key. -/
def requestPlan (s : SessionState) (method : String) (u : ParsedUrl)
    (a : RequestArgs) (verify : Option Bool) : Except Err Plan :=
  if s.closed then .error (.runtimeError "Session is closed")
  else
    let host := u.hostname.getD ""
    let port := effectivePort u
    let path0 := if u.path = "" then "/" else u.path
    let path1 := if u.query ≠ "" then path0 ++ "?" ++ u.query else path0
    let path2 :=
      if a.params ≠ [] then
        path1 ++ (if path1.contains (Char.ofNat 63) then "&" else "?") ++ urlencodePairs a.params
      else path1
    let isSsl := decide (u.scheme = "https")
    let verifySsl := verify.getD s.verify
    let base := assembleHeaders (mergeHeaders s.defaultHeaders a.headers) host port
    let be := encodeBodyHeaders a.jsonArg a.dataArg base
    let reqH := finalizeCL be.2 be.1
    let m := method.toUpper
    .ok { method := m, path := path2, reqHeaders := reqH, body := be.1,
          poolKey := (host, port, isSsl), verifySsl := verifySsl,
          requestBytes := buildBytes m path2 reqH be.1 }

/-! ## Redirect handling (client.py lines 653-667) -/

/-- Statuses the client follows as redirects. -/
def redirectCodes : List Int := [301, 302, 303, 307, 308]

/-- Outcome of the redirect block: return the response as-is, or re-enter
request with a new method, target and hop budget. -/
inductive RedirectAction where
  | finish
  | follow (method : String) (location : String) (remaining : Int)
deriving DecidableEq, Repr

/-- Translation of the redirect block of `Session.request` (client.py lines
653-667): follow only when redirects are allowed, the status is a redirect
code, hops remain and a Location is present; 303 forces GET, every other
redirect code keeps the method; relative targets are prefixed with
scheme://host:port; the hop budget decrements. -/
def redirectDecision (allowRedirects : Bool) (status : Int) (maxRedirects : Int)
    (method : String) (location : String) (scheme host : String) (port : Nat) :
    RedirectAction :=
  if allowRedirects = true ∧ status ∈ redirectCodes then
    if 0 < maxRedirects then
      if location ≠ "" then
        let target :=
          if ¬ location.startsWith "http" then
            scheme ++ "://" ++ host ++ ":" ++ toString port ++ location
          else location
        .follow (if status = 303 then "GET" else method) target (maxRedirects - 1)
      else .finish
    else .finish
  else .finish

/-! ## Response (client.py lines 44-152) -/

/-- Response value object; the fields the claims touch. -/
structure Response where
  status_code : Int
  headers : List (String × String)
  body : List Nat
  url : String
  reason : String
deriving DecidableEq, Repr

/-- Translation of `Response.iter_content` (client.py lines 127-130): the
slices body[i : i + chunk_size] for i in range(0, len(body), chunk_size).
Defined for chunk_size greater than zero (range raises ValueError on a
zero step). -/
def Response.iter_content (r : Response) (chunk_size : Nat) : List (List Nat) :=
  (List.range' 0 ((r.body.length + chunk_size - 1) / chunk_size) chunk_size).map
    fun i => (r.body.drop i).take chunk_size

/-- Slices body[i : i + chunk_size] for i in range(0, len(body), chunk_size),
the loop inside Response.iter_content. -/
def sliceChunks (body : List Nat) (chunk_size : Nat) : List (List Nat) :=
  (List.range' 0 ((body.length + chunk_size - 1) / chunk_size) chunk_size).map
    fun i => (body.drop i).take chunk_size

/-! ## Theorems -/

/-- Unfolding step of sliceChunks on a non-empty body. -/
theorem sliceChunks_cons (l : List Nat) (n : Nat) (hn : 0 < n) (hl : l ≠ []) :
    sliceChunks l n = l.take n :: sliceChunks (l.drop n) n := by
  have hL : 0 < l.length := List.length_pos.mpr hl
  have hk : (l.length + n - 1) / n = (((l.drop n).length + n - 1) / n) + 1 := by
    rw [List.length_drop]
    rcases le_or_lt l.length n with h | h
    · have h2 : l.length - n = 0 := by omega
      rw [h2]
      have h1 : (l.length + n - 1) / n = 1 := Nat.div_eq_of_lt_le (by omega) (by omega)
      have h3 : (0 + n - 1) / n = 0 := Nat.div_eq_of_lt (by omega)
      omega
    · have h1 : l.length + n - 1 = (l.length - 1 - n) + n + n := by omega
      have h2 : l.length - n + n - 1 = (l.length - 1 - n) + n := by omega
      rw [h1, h2, Nat.add_div_right _ hn, Nat.add_div_right _ hn]
  unfold sliceChunks
  rw [hk, List.range'_succ, List.map_cons, List.drop_zero]
  congr 1
  have hsh := List.map_add_range' n 0 (((l.drop n).length + n - 1) / n) n
  simp only [Nat.add_zero, Nat.zero_add] at hsh
  rw [show (0 + n) = n by omega, ← hsh, List.map_map]
  apply List.map_congr_left
  intro i _
  simp only [Function.comp_apply]
  rw [List.drop_drop]

/-- Chunks of the empty body: none. -/
theorem sliceChunks_nil (n : Nat) : sliceChunks [] n = [] := by
  unfold sliceChunks
  cases n with
  | zero => simp
  | succ m => simp [Nat.div_eq_of_lt (Nat.lt_succ_self m)]

/-- Concatenating the chunks reproduces the body. -/
theorem sliceChunks_flatten (n : Nat) (hn : 0 < n) (l : List Nat) :
    (sliceChunks l n).flatten = l := by
  by_cases hl : l = []
  · subst hl; rw [sliceChunks_nil]; rfl
  · rw [sliceChunks_cons l n hn hl, List.flatten_cons,
      sliceChunks_flatten n hn (l.drop n), List.take_append_drop]
  termination_by l.length
  decreasing_by
    have : 0 < l.length := List.length_pos.mpr hl
    simp only [List.length_drop]
    omega

/-- Chunking produces the empty list only on the empty body. -/
theorem sliceChunks_eq_nil_iff (n : Nat) (hn : 0 < n) (l : List Nat) :
    sliceChunks l n = [] ↔ l = [] := by
  constructor
  · intro h
    by_cases hl : l = []
    · exact hl
    · rw [sliceChunks_cons l n hn hl] at h
      exact absurd h (by simp)
  · intro h; subst h; exact sliceChunks_nil n

/-- Every chunk except possibly the last has length exactly the chunk
size. -/
theorem sliceChunks_dropLast_length (n : Nat) (hn : 0 < n) (l : List Nat) :
    ∀ c ∈ (sliceChunks l n).dropLast, c.length = n := by
  by_cases hl : l = []
  · subst hl; rw [sliceChunks_nil]; intro c hc; exact absurd hc (by simp)
  · rw [sliceChunks_cons l n hn hl]
    by_cases hrest : sliceChunks (l.drop n) n = []
    · rw [hrest]
      intro c hc; exact absurd hc (by simp)
    · rw [List.dropLast_cons_of_ne_nil hrest]
      intro c hc
      rcases List.mem_cons.mp hc with h | h
      · subst h
        have hdrop : l.drop n ≠ [] := by
          intro hd
          exact hrest ((sliceChunks_eq_nil_iff n hn _).mpr hd)
        have : n < l.length := by
          have := List.length_pos.mpr hdrop
          simp only [List.length_drop] at this
          omega
        simp [List.length_take]
        omega
      · exact sliceChunks_dropLast_length n hn (l.drop n) c h
  termination_by l.length
  decreasing_by
    have : 0 < l.length := List.length_pos.mpr hl
    simp only [List.length_drop]
    omega

/-- C10: for every Response and every chunk_size greater than 0,
concatenating the slices yielded by iter_content(chunk_size) reproduces
content exactly, and every yielded slice except possibly the last has
length exactly chunk_size. -/
theorem c10_iter_content (r : Response) (n : Nat) (hn : 0 < n) :
    (r.iter_content n).flatten = r.body ∧
      ∀ c ∈ (r.iter_content n).dropLast, c.length = n := by
  have he : r.iter_content n = sliceChunks r.body n := rfl
  rw [he]
  exact ⟨sliceChunks_flatten n hn r.body, sliceChunks_dropLast_length n hn r.body⟩

/-- Witness for C10 at a concrete response and chunk size. -/
theorem c10_witness :
    0 < 3 ∧
      (((Response.mk 200 [] [0, 1, 2, 3, 4, 5, 6, 7] "u" "OK").iter_content 3).flatten =
          [0, 1, 2, 3, 4, 5, 6, 7] ∧
        ∀ c ∈ ((Response.mk 200 [] [0, 1, 2, 3, 4, 5, 6, 7] "u" "OK").iter_content 3).dropLast,
          c.length = 3) :=
  ⟨by decide, c10_iter_content (Response.mk 200 [] [0, 1, 2, 3, 4, 5, 6, 7] "u" "OK") 3 (by decide)⟩

/-- C1: a released connection is placed in the idle list iff keep_alive
holds, the writer is not closing, the pool is not closed, and the idle
list holds fewer than max_size entries; in every other case it does not
enter the idle list and its writer is closed (or was already closing).
The hypothesis says the connection being released is not already idle,
which is the source invariant for a loaned-out connection. -/
theorem c1_release_idle_iff (p : PoolState) (c : Conn) (ka : Bool) (now : Nat)
    (hfresh : ∀ t, (c, t) ∉ p.available) :
    ((∃ t, (c, t) ∈ (p.release c ka now).1.available) ↔
      (ka = true ∧ c.is_closing = false ∧ p.closed = false ∧
        p.available.length < p.max_size)) ∧
    (¬ (ka = true ∧ c.is_closing = false ∧ p.closed = false ∧
        p.available.length < p.max_size) →
      (∀ t, (c, t) ∉ (p.release c ka now).1.available) ∧
      (c ∈ (p.release c ka now).2 ∨ c.is_closing = true)) := by
  by_cases h1 : p.closed = true ∨ ka = false ∨ c.is_closing = true
  · have He : p.release c ka now =
        ({ p with in_use := p.in_use.erase c }, if c.is_closing then [] else [c]) := by
      unfold PoolState.release; rw [if_pos h1]
    rw [He]
    constructor
    · constructor
      · rintro ⟨t, ht⟩
        exact absurd ht (hfresh t)
      · rintro ⟨hka, hic, hpc, -⟩
        rcases h1 with h | h | h <;> simp_all
    · intro _
      refine ⟨hfresh, ?_⟩
      cases hic : c.is_closing
      · left; simp [hic]
      · right; rfl
  · push_neg at h1
    obtain ⟨hpc, hka, hic⟩ := h1
    have hpc' : p.closed = false := by simpa using hpc
    have hka' : ka = true := by simpa using hka
    have hic' : c.is_closing = false := by simpa using hic
    by_cases h2 : p.available.length < p.max_size
    · have He : p.release c ka now =
          ({ p with in_use := p.in_use.erase c, available := (c, now) :: p.available }, []) := by
        unfold PoolState.release
        rw [if_neg (by simp [hpc', hka', hic']), if_pos h2]
      rw [He]
      constructor
      · constructor
        · intro _
          exact ⟨hka', hic', hpc', h2⟩
        · intro _
          exact ⟨now, by simp⟩
      · intro hcon
        exact absurd ⟨hka', hic', hpc', h2⟩ hcon
    · have He : p.release c ka now =
          ({ p with in_use := p.in_use.erase c }, [c]) := by
        unfold PoolState.release
        rw [if_neg (by simp [hpc', hka', hic']), if_neg h2]
      rw [He]
      constructor
      · constructor
        · rintro ⟨t, ht⟩
          exact absurd ht (hfresh t)
        · rintro ⟨-, -, -, hlt⟩
          exact absurd hlt h2
      · intro _
        exact ⟨hfresh, Or.inl (by simp)⟩

/-- Witness for C1: releasing a keep-alive connection to an open pool with
room places it in the idle list. -/
theorem c1_witness :
    ((∃ t, ((Conn.mk 7 false), t) ∈
        ((PoolState.mk [] [Conn.mk 7 false] false 2 30 "h" 80 none).release
          (Conn.mk 7 false) true 5).1.available) ↔
      (true = true ∧ (Conn.mk 7 false).is_closing = false ∧ false = false ∧
        ([] : List (Conn × Nat)).length < 2)) ∧
    (¬ (true = true ∧ (Conn.mk 7 false).is_closing = false ∧ false = false ∧
        ([] : List (Conn × Nat)).length < 2) →
      (∀ t, ((Conn.mk 7 false), t) ∉
        ((PoolState.mk [] [Conn.mk 7 false] false 2 30 "h" 80 none).release
          (Conn.mk 7 false) true 5).1.available) ∧
      ((Conn.mk 7 false) ∈
        ((PoolState.mk [] [Conn.mk 7 false] false 2 30 "h" 80 none).release
          (Conn.mk 7 false) true 5).2 ∨ (Conn.mk 7 false).is_closing = true)) :=
  c1_release_idle_iff (PoolState.mk [] [Conn.mk 7 false] false 2 30 "h" 80 none)
    (Conn.mk 7 false) true 5 (by simp)

/-- C2 counterexample: releasing a keep-alive connection (id 2) to an open
pool whose idle list is full (max_size 1, one idle connection of id 1)
leaves the idle list unchanged — the oldest-inserted idle connection is
neither evicted nor closed; instead the released connection itself is the
one closed.  This refutes the claim that the oldest idle connection is
evicted and closed on overflow. -/
theorem c2_counterexample :
    ((PoolState.mk [(Conn.mk 1 false, 0)] [Conn.mk 2 false] false 1 30 "h" 80 none).release
        (Conn.mk 2 false) true 9).1.available = [(Conn.mk 1 false, 0)] ∧
    ((PoolState.mk [(Conn.mk 1 false, 0)] [Conn.mk 2 false] false 1 30 "h" 80 none).release
        (Conn.mk 2 false) true 9).2 = [Conn.mk 2 false] := by
  decide

/-- C2 amended: on release of a keep-alive, non-closing connection to an
open pool whose idle list is full, the released connection itself is
closed and the idle list is unchanged; and release never grows the idle
list beyond max_size. -/
theorem c2_release_overflow (p : PoolState) (c : Conn) (now : Nat)
    (hpc : p.closed = false) (hic : c.is_closing = false)
    (hfull : p.max_size ≤ p.available.length) :
    ((p.release c true now).1.available = p.available ∧
      (p.release c true now).2 = [c]) ∧
    (∀ (q : PoolState) (d : Conn) (ka : Bool) (t : Nat),
      q.available.length ≤ q.max_size →
      ((q.release d ka t).1.available.length ≤ q.max_size)) := by
  constructor
  · have He : p.release c true now = ({ p with in_use := p.in_use.erase c }, [c]) := by
      unfold PoolState.release
      rw [if_neg (by simp [hpc, hic]), if_neg (by omega)]
    rw [He]
    exact ⟨rfl, rfl⟩
  · intro q d ka t hle
    unfold PoolState.release
    split_ifs <;> simp [List.length_cons] <;> omega

/-- Witness for C2 amended at a full pool. -/
theorem c2_witness :
    ((((PoolState.mk [(Conn.mk 1 false, 0)] [] false 1 30 "h" 80 none).release
          (Conn.mk 2 false) true 9).1.available = [(Conn.mk 1 false, 0)] ∧
      ((PoolState.mk [(Conn.mk 1 false, 0)] [] false 1 30 "h" 80 none).release
          (Conn.mk 2 false) true 9).2 = [Conn.mk 2 false]) ∧
      (∀ (q : PoolState) (d : Conn) (ka : Bool) (t : Nat),
        q.available.length ≤ q.max_size →
        ((q.release d ka t).1.available.length ≤ q.max_size))) :=
  c2_release_overflow (PoolState.mk [(Conn.mk 1 false, 0)] [] false 1 30 "h" 80 none)
    (Conn.mk 2 false) 9 rfl rfl (by decide)

/-- C7: after Session.close() every subsequent request fails with the
closed-session error (RuntimeError with message Session is closed, the
error the source designates for this condition), and acquire on a closed
pool fails with the closed-pool error (RuntimeError, Pool is closed). -/
theorem c7_closed_errors :
    (∀ (s : SessionState) (method : String) (u : ParsedUrl) (a : RequestArgs)
        (v : Option Bool),
      requestPlan s.close method u a v = .error (.runtimeError "Session is closed")) ∧
    (∀ (p : PoolState) (now : Nat), p.closed = true →
      p.acquire now = .error (.runtimeError "Pool is closed")) := by
  constructor
  · intro s method u a v
    have hc : s.close.closed = true := by
      unfold SessionState.close
      split_ifs with h
      · exact h
      · rfl
    unfold requestPlan
    rw [if_pos hc]
  · intro p now h
    unfold PoolState.acquire
    rw [if_pos h]

/-- Witness for C7 at a concrete closed session and closed pool. -/
theorem c7_witness :
    requestPlan (SessionState.close (SessionState.mk false [] [] [] true 30)) "GET"
        (ParsedUrl.mk "http" (some "example.com") none "/" "")
        (RequestArgs.mk none [] none none) none =
      .error (.runtimeError "Session is closed") ∧
    PoolState.acquire (PoolState.mk [] [] true 5 30 "h" 80 none) 0 =
      .error (.runtimeError "Pool is closed") :=
  ⟨c7_closed_errors.1 (SessionState.mk false [] [] [] true 30) "GET"
      (ParsedUrl.mk "http" (some "example.com") none "/" "")
      (RequestArgs.mk none [] none none) none,
    c7_closed_errors.2 (PoolState.mk [] [] true 5 30 "h" 80 none) 0 rfl⟩

/-- C5: when a redirect is followed, status 303 forces the next hop to use
method GET; statuses 301, 302, 307 and 308 preserve the original method;
and a redirect response arriving with 0 hops remaining is returned with no
further dispatch. -/
theorem c5_redirects :
    (∀ (maxR : Int) (method location scheme host : String) (port : Nat),
      0 < maxR → location ≠ "" →
      ∃ target, redirectDecision true 303 maxR method location scheme host port =
        .follow "GET" target (maxR - 1)) ∧
    (∀ (status maxR : Int) (method location scheme host : String) (port : Nat),
      status ∈ ([301, 302, 307, 308] : List Int) → 0 < maxR → location ≠ "" →
      ∃ target, redirectDecision true status maxR method location scheme host port =
        .follow method target (maxR - 1)) ∧
    (∀ (allowR : Bool) (status : Int) (method location scheme host : String) (port : Nat),
      status ∈ redirectCodes →
      redirectDecision allowR status 0 method location scheme host port = .finish) := by
  refine ⟨?_, ?_, ?_⟩
  · intro maxR method location scheme host port hmr hloc
    unfold redirectDecision
    rw [if_pos ⟨rfl, by decide⟩, if_pos hmr, if_pos hloc, if_pos rfl]
    exact ⟨_, rfl⟩
  · intro status maxR method location scheme host port hmem hmr hloc
    simp only [List.mem_cons, List.mem_singleton] at hmem
    unfold redirectDecision
    rcases hmem with rfl | rfl | rfl | (rfl | h)
    · rw [if_pos ⟨rfl, by decide⟩, if_pos hmr, if_pos hloc,
        if_neg (show ¬((301 : Int) = 303) by decide)]
      exact ⟨_, rfl⟩
    · rw [if_pos ⟨rfl, by decide⟩, if_pos hmr, if_pos hloc,
        if_neg (show ¬((302 : Int) = 303) by decide)]
      exact ⟨_, rfl⟩
    · rw [if_pos ⟨rfl, by decide⟩, if_pos hmr, if_pos hloc,
        if_neg (show ¬((307 : Int) = 303) by decide)]
      exact ⟨_, rfl⟩
    · rw [if_pos ⟨rfl, by decide⟩, if_pos hmr, if_pos hloc,
        if_neg (show ¬((308 : Int) = 303) by decide)]
      exact ⟨_, rfl⟩
    · exact absurd h (by simp)
  · intro allowR status method location scheme host port hmem
    unfold redirectDecision
    by_cases hA : allowR = true ∧ status ∈ redirectCodes
    · rw [if_pos hA, if_neg (by omega)]
    · rw [if_neg hA]

/-- Witness for C5: a followed 303 turns POST into GET, a followed 307
keeps POST, and a 302 with zero hops remaining is returned as-is. -/
theorem c5_witness :
    (∃ target, redirectDecision true 303 1 "POST" "/y" "http" "h" 80 =
      .follow "GET" target ((1 : Int) - 1)) ∧
    (∃ target, redirectDecision true 307 1 "POST" "/y" "http" "h" 80 =
      .follow "POST" target ((1 : Int) - 1)) ∧
    redirectDecision true 302 0 "GET" "/z" "http" "h" 80 = .finish :=
  ⟨c5_redirects.1 1 "POST" "/y" "http" "h" 80 (by decide) (by decide),
   c5_redirects.2.1 307 1 "POST" "/y" "http" "h" 80 (by decide) (by decide) (by decide),
   c5_redirects.2.2 true 302 "GET" "/z" "http" "h" 80 (by decide)⟩

/-- C8: pools are cached by the key (host, port, is_tls) only: after a
first request creates the pool with TLS verification setting v1, a second
request to the same host, port and scheme with a different verify value v2
gets back exactly the pool created by the first request, whose SSL context
was configured from v1; the session state does not change, so v2 has no
effect on the connection. -/
theorem c8_pool_key_ignores_verify (s : SessionState) (host : String) (port : Nat)
    (v1 v2 : Bool) (hne : v1 ≠ v2)
    (hkey : s.pools.find? (fun p => p.1 = (host, port, true)) = none)
    (hctx : s.sslContexts.find? (fun p => p.1 = v1) = none) :
    getPool (getPool s host port true v1).2 host port true v2 =
      ((getPool s host port true v1).1, (getPool s host port true v1).2) ∧
    (getPool s host port true v1).1.ssl_context = some (mkSslContext v1) := by
  simp [getPool, getSslContext, hkey, hctx, List.find?_append]

/-- Witness for C8 at a fresh session: verify true first, verify false
second. -/
theorem c8_witness :
    getPool (getPool (SessionState.mk false [] [] [] true 30) "h" 443 true true).2
        "h" 443 true false =
      ((getPool (SessionState.mk false [] [] [] true 30) "h" 443 true true).1,
        (getPool (SessionState.mk false [] [] [] true 30) "h" 443 true true).2) ∧
    (getPool (SessionState.mk false [] [] [] true 30) "h" 443 true true).1.ssl_context =
      some (mkSslContext true) :=
  c8_pool_key_ignores_verify (SessionState.mk false [] [] [] true 30) "h" 443 true false
    (by decide) rfl rfl

/-- C9: when the parsed header block carries both a Transfer-Encoding that
contained the chunked token and a Content-Length, the body is read by
chunked framing and the Content-Length value n plays no part in the
result. -/
theorem c9_chunked_precedence (s hb rest : List Nat) (code : Int) (reason : String)
    (info : HeaderInfo) (n : Int) (chunks : List (List Nat)) (r : List Nat)
    (hru : readuntil crlf2 s = .ok (hb, rest))
    (hph : parseHeaderBlock hb = .ok (code, reason, info))
    (hch : info.chunked = true)
    (hcl : info.content_length = some n)
    (hrc : readChunked rest [] = .ok (chunks, r)) :
    parse s = .ok { status_code := code, reason := reason, headers := info.headers,
                    body := joinChunks chunks, keep_alive := info.keep_alive } := by
  unfold parse
  rw [hru]
  dsimp only
  rw [hph]
  dsimp only
  simp [hch, hrc]

/-- Witness for C9: a response carrying Content-Length 3 and chunked
framing yields the chunked body Wiki (4 bytes), ignoring the 3. -/
theorem c9_witness :
    parse (strBytes "HTTP/1.1 200 OK\r\nContent-Length: 3\r\nTransfer-Encoding: chunked\r\n\r\n4\r\nWiki\r\n0\r\n\r\n") =
      .ok { status_code := 200, reason := "OK",
            headers := [("Content-Length", "3"), ("Transfer-Encoding", "chunked")],
            body := strBytes "Wiki", keep_alive := true } :=
  c9_chunked_precedence
    (strBytes "HTTP/1.1 200 OK\r\nContent-Length: 3\r\nTransfer-Encoding: chunked\r\n\r\n4\r\nWiki\r\n0\r\n\r\n")
    (strBytes "HTTP/1.1 200 OK\r\nContent-Length: 3\r\nTransfer-Encoding: chunked\r\n\r\n")
    (strBytes "4\r\nWiki\r\n0\r\n\r\n")
    200 "OK"
    (HeaderInfo.mk [("Content-Length", "3"), ("Transfer-Encoding", "chunked")] (some 3) true true)
    3 [strBytes "Wiki"] []
    rfl rfl rfl rfl rfl

/-- C4 counterexample: the failure conditions listed by the claim do not
share one error kind, so no single kind ProtocolError covers them (and the
source defines no ProtocolError; its error types are ClientError,
ServerError and TimeoutError only): a short read fails with
IncompleteReadError while a non-integer status fails with ValueError. -/
theorem c4_counterexample :
    parse [] = .error .incompleteReadError ∧
    parse (strBytes "HTTP/1.1 abc OK\r\n\r\n") = .error .valueError ∧
    Err.incompleteReadError ≠ Err.valueError :=
  ⟨rfl, rfl, by decide⟩

/-- C4 amended: each listed malformed stream makes the parser fail, but
with the error the underlying operation raises rather than one unified
ProtocolError kind: a short read (no double CRLF) raises
IncompleteReadError; a status line without a second space-separated token
raises IndexError; a non-integer status token raises ValueError; a
non-hex chunk-size line raises ValueError; an unexpected EOF mid-body
(fewer bytes than Content-Length) raises IncompleteReadError. -/
theorem c4_parser_failures :
    (∀ s : List Nat, firstSubIdx s crlf2 = none →
      parse s = .error .incompleteReadError) ∧
    (∀ s hb rest : List Nat, readuntil crlf2 s = .ok (hb, rest) →
      (splitMax 32 2 (pySlice hb 0 (pyFind hb crlf))).get? 1 = none →
      parse s = .error .indexError) ∧
    (∀ (s hb rest tok : List Nat), readuntil crlf2 s = .ok (hb, rest) →
      (splitMax 32 2 (pySlice hb 0 (pyFind hb crlf))).get? 1 = some tok →
      parseIntB 10 tok = none →
      parse s = .error .valueError) ∧
    (∀ (s hb rest : List Nat) (code : Int) (reason : String) (info : HeaderInfo),
      readuntil crlf2 s = .ok (hb, rest) →
      parseHeaderBlock hb = .ok (code, reason, info) →
      info.chunked = true →
      parseIntB 16 ((splitAll (stripB (readline rest).1) [59]).headD []) = none →
      parse s = .error .valueError) ∧
    (∀ (s hb rest : List Nat) (code : Int) (reason : String) (info : HeaderInfo) (n : Int),
      readuntil crlf2 s = .ok (hb, rest) →
      parseHeaderBlock hb = .ok (code, reason, info) →
      info.chunked = false →
      info.content_length = some n →
      0 < n →
      rest.length < n.toNat →
      parse s = .error .incompleteReadError) := by
  refine ⟨?_, ?_, ?_, ?_, ?_⟩
  · intro s h
    have hru : readuntil crlf2 s = .error .incompleteReadError := by
      unfold readuntil
      rw [h]
    unfold parse
    rw [hru]
  · intro s hb rest hru hget
    have hpb : parseHeaderBlock hb = .error .indexError := by
      unfold parseHeaderBlock
      dsimp only
      rw [hget]
    unfold parse
    rw [hru]
    dsimp only
    rw [hpb]
  · intro s hb rest tok hru hget hint
    have hpb : parseHeaderBlock hb = .error .valueError := by
      unfold parseHeaderBlock
      dsimp only
      rw [hget]
      dsimp only
      rw [hint]
    unfold parse
    rw [hru]
    dsimp only
    rw [hpb]
  · intro s hb rest code reason info hru hph hch hsz
    have hrc : readChunked rest [] = .error .valueError := by
      unfold readChunked
      show readChunkedF (rest.length + 1) rest [] = .error .valueError
      rw [readChunkedF]
      rw [hsz]
    unfold parse
    rw [hru]
    dsimp only
    rw [hph]
    dsimp only
    rw [hch]
    simp only [if_true]
    rw [hrc]
  · intro s hb rest code reason info n hru hph hch hcl hpos hlen
    have hre : readexactly n.toNat rest = .error .incompleteReadError := by
      unfold readexactly
      rw [if_pos hlen]
    unfold parse
    rw [hru]
    dsimp only
    rw [hph]
    dsimp only
    rw [hch]
    simp only [Bool.false_eq_true, if_false]
    rw [hcl]
    dsimp only
    rw [if_neg (by omega), if_neg (by omega), hre]

/-- Witness for C4 amended: concrete streams for each of the five failure
conditions, with the error kind each one produces. -/
theorem c4_witness :
    parse (strBytes "HTTP/1.1 200") = .error .incompleteReadError ∧
    parse (strBytes "MALFORMED\r\n\r\n") = .error .indexError ∧
    parse (strBytes "HTTP/1.1 twohundred\r\n\r\n") = .error .valueError ∧
    parse (strBytes "HTTP/1.1 200 OK\r\nTransfer-Encoding: chunked\r\n\r\nZZ\r\n") =
      .error .valueError ∧
    parse (strBytes "HTTP/1.1 200 OK\r\nContent-Length: 10\r\n\r\nhi") =
      .error .incompleteReadError :=
  ⟨c4_parser_failures.1 (strBytes "HTTP/1.1 200") rfl,
   c4_parser_failures.2.1 (strBytes "MALFORMED\r\n\r\n") (strBytes "MALFORMED\r\n\r\n") [] rfl rfl,
   c4_parser_failures.2.2.1 (strBytes "HTTP/1.1 twohundred\r\n\r\n")
     (strBytes "HTTP/1.1 twohundred\r\n\r\n") [] (strBytes "twohundred") rfl rfl rfl,
   c4_parser_failures.2.2.2.1
     (strBytes "HTTP/1.1 200 OK\r\nTransfer-Encoding: chunked\r\n\r\nZZ\r\n")
     (strBytes "HTTP/1.1 200 OK\r\nTransfer-Encoding: chunked\r\n\r\n")
     (strBytes "ZZ\r\n") 200 "OK"
     (HeaderInfo.mk [("Transfer-Encoding", "chunked")] none true true) rfl rfl rfl rfl,
   c4_parser_failures.2.2.2.2
     (strBytes "HTTP/1.1 200 OK\r\nContent-Length: 10\r\n\r\nhi")
     (strBytes "HTTP/1.1 200 OK\r\nContent-Length: 10\r\n\r\n")
     (strBytes "hi") 200 "OK"
     (HeaderInfo.mk [("Content-Length", "10")] (some 10) false true) 10
     rfl rfl rfl rfl (by decide) (by decide)⟩

/-! ## Header dictionary lemmas shared by the Host and Content-Length
claims -/

/-- Lookup distributes over append: the left list wins. -/
theorem lookupH_append (h t : Headers) (k : String) :
    lookupH (h ++ t) k =
      match lookupH h k with
      | some v => some v
      | none => lookupH t k := by
  induction h with
  | nil => simp [lookupH]
  | cons p r ih =>
    by_cases hp : p.1 = k
    · simp [lookupH, hp]
    · simp [lookupH, hp, ih]

/-- Lookup misses exactly when the key is not among the keys. -/
theorem lookupH_eq_none_iff (h : Headers) (k : String) :
    lookupH h k = none ↔ k ∉ h.map Prod.fst := by
  induction h with
  | nil => simp [lookupH]
  | cons p r ih =>
    simp only [lookupH, List.map_cons, List.mem_cons]
    by_cases hp : p.1 = k
    · rw [if_pos hp]
      simp [hp]
    · rw [if_neg hp, ih]
      constructor
      · rintro hnot (he | he)
        · exact hp he.symm
        · exact hnot he
      · intro hnot hm
        exact hnot (Or.inr hm)

/-- Boolean contains agrees with list membership on strings. -/
theorem contains_mem_iff (l : List String) (k : String) :
    l.contains k = true ↔ k ∈ l := by
  induction l with
  | nil => simp
  | cons a r ih => simp [List.contains_cons, beq_iff_eq, ih]

/-- Keys are unchanged by the in-place replacement map of dictSet. -/
theorem keys_replace (h : Headers) (k v : String) :
    ((h.map fun p => if p.1 = k then (k, v) else p).map Prod.fst) = h.map Prod.fst := by
  induction h with
  | nil => rfl
  | cons p r ih =>
    by_cases hp : p.1 = k
    · simp only [List.map_cons, if_pos hp, ih]
      rw [hp]
    · simp only [List.map_cons, if_neg hp, ih]

/-- Keys of a dict assignment: unchanged on overwrite, the new key appended
on insert. -/
theorem keys_dictSet (h : Headers) (k v : String) :
    (dictSet h k v).map Prod.fst =
      if (h.map Prod.fst).contains k then h.map Prod.fst
      else h.map Prod.fst ++ [k] := by
  unfold dictSet
  split_ifs with hc
  · exact keys_replace h k v
  · simp

/-- Keys of a setDefault: unchanged when present, appended when absent. -/
theorem keys_setDefault (h : Headers) (k v : String) :
    (setDefault h k v).map Prod.fst =
      if (h.map Prod.fst).contains k then h.map Prod.fst
      else h.map Prod.fst ++ [k] := by
  unfold setDefault
  split_ifs with hc
  · rfl
  · simp

/-- Lookup of another key passes through the replacement map. -/
theorem lookup_replace_ne (h : Headers) (k k' v : String) (hne : k' ≠ k) :
    lookupH (h.map fun p => if p.1 = k then (k, v) else p) k' = lookupH h k' := by
  induction h with
  | nil => rfl
  | cons p r ih =>
    by_cases hp : p.1 = k
    · simp only [List.map_cons, if_pos hp, lookupH]
      rw [if_neg (fun he => hne he.symm), if_neg (by rw [hp]; exact fun he => hne he.symm), ih]
    · simp only [List.map_cons, if_neg hp, lookupH]
      by_cases hp' : p.1 = k'
      · rw [if_pos hp', if_pos hp']
      · rw [if_neg hp', if_neg hp', ih]

/-- Lookup of another key passes through a dict assignment. -/
theorem lookup_dictSet_ne (h : Headers) (k k' v : String) (hne : k' ≠ k) :
    lookupH (dictSet h k v) k' = lookupH h k' := by
  unfold dictSet
  split_ifs with hc
  · exact lookup_replace_ne h k k' v hne
  · rw [lookupH_append]
    cases hl : lookupH h k'
    · simp only [lookupH]
      rw [if_neg (fun he => hne he.symm)]
    · rfl

/-- Lookup of another key passes through a setDefault. -/
theorem lookup_setDefault_ne (h : Headers) (k k' v : String) (hne : k' ≠ k) :
    lookupH (setDefault h k v) k' = lookupH h k' := by
  unfold setDefault
  split_ifs with hc
  · rfl
  · rw [lookupH_append]
    cases hl : lookupH h k'
    · simp only [lookupH]
      rw [if_neg (fun he => hne he.symm)]
    · rfl

/-- A setDefault on an absent key makes lookup return the default. -/
theorem lookup_setDefault_of_none (h : Headers) (k v : String)
    (hk : lookupH h k = none) :
    lookupH (setDefault h k v) k = some v := by
  unfold setDefault
  rw [if_neg (by
    intro hc
    rw [lookupH_eq_none_iff] at hk
    exact hk ((contains_mem_iff _ _).mp hc))]
  rw [lookupH_append, hk]
  simp [lookupH]

/-- A dict assignment makes lookup return the assigned value. -/
theorem lookup_dictSet_self (h : Headers) (k v : String) :
    lookupH (dictSet h k v) k = some v := by
  unfold dictSet
  split_ifs with hc
  · induction h with
    | nil => exact absurd hc (by simp)
    | cons p r ih =>
      by_cases hp : p.1 = k
      · simp [lookupH, hp]
      · simp only [List.map_cons, if_neg hp, lookupH]
        apply ih
        simp only [List.map_cons, List.contains_cons, Bool.or_eq_true_iff] at hc
        rcases hc with hx | hx
        · exact absurd (by simpa [beq_iff_eq] using hx : k = p.1) (fun he => hp he.symm)
        · exact hx
  · rw [lookupH_append]
    have hk : lookupH h k = none := by
      rw [lookupH_eq_none_iff]
      intro hm
      exact hc ((contains_mem_iff _ _).mpr hm)
    rw [hk]
    simp [lookupH]

/-- Key counts add over append. -/
theorem countKey_append (h t : Headers) (k : String) :
    countKey (h ++ t) k = countKey h k + countKey t k := by
  unfold countKey
  rw [List.filter_append, List.length_append]

/-- Key count of a singleton with another key. -/
theorem countKey_single_ne (k k' v : String) (hne : k' ≠ k) :
    countKey [(k, v)] k' = 0 := by
  simp [countKey, Ne.symm hne]

/-- Key counts are unchanged by the in-place replacement map of dictSet. -/
theorem countKey_replace (h : Headers) (k v k' : String) :
    countKey (h.map fun p => if p.1 = k then (k, v) else p) k' = countKey h k' := by
  unfold countKey
  rw [← List.countP_eq_length_filter, ← List.countP_eq_length_filter, List.countP_map]
  apply List.countP_congr
  intro p _
  have hfst : ((fun p => if p.1 = k then (k, v) else p) p).1 = p.1 := by
    show (if p.1 = k then (k, v) else p).1 = p.1
    split_ifs with hp
    · exact hp.symm
    · rfl
  simp [Function.comp_apply, hfst]

/-- Key count of another key passes through a dict assignment. -/
theorem countKey_dictSet_ne (h : Headers) (k k' v : String) (hne : k' ≠ k) :
    countKey (dictSet h k v) k' = countKey h k' := by
  unfold dictSet
  split_ifs with hc
  · exact countKey_replace h k v k'
  · rw [countKey_append, countKey_single_ne k k' v hne]
    omega

/-- Key count of another key passes through a setDefault. -/
theorem countKey_setDefault_ne (h : Headers) (k k' v : String) (hne : k' ≠ k) :
    countKey (setDefault h k v) k' = countKey h k' := by
  unfold setDefault
  split_ifs with hc
  · rfl
  · rw [countKey_append, countKey_single_ne k k' v hne]
    omega

/-- Zero key count is absence from the keys. -/
theorem countKey_eq_zero_iff (h : Headers) (k : String) :
    countKey h k = 0 ↔ k ∉ h.map Prod.fst := by
  unfold countKey
  rw [List.length_eq_zero, List.filter_eq_nil_iff]
  simp only [List.mem_map, decide_eq_true_eq]
  constructor
  · intro hall hm
    obtain ⟨p, hp, he⟩ := hm
    exact hall p hp he
  · intro hnot p hp he
    exact hnot ⟨p, hp, he⟩

/-- Under unique keys, every key occurs at most once. -/
theorem countKey_le_one (h : Headers) (k : String)
    (hnd : (h.map Prod.fst).Nodup) : countKey h k ≤ 1 := by
  induction h with
  | nil => simp [countKey]
  | cons p r ih =>
    simp only [List.map_cons, List.nodup_cons] at hnd
    have hsplit : countKey (p :: r) k = countKey [p] k + countKey r k := by
      simpa using countKey_append [p] r k
    have h1 : countKey [p] k ≤ 1 := by
      unfold countKey
      rw [List.filter_cons]
      split <;> simp
    by_cases hp : p.1 = k
    · have hz : countKey r k = 0 := by
        rw [countKey_eq_zero_iff, ← hp]
        exact hnd.1
      omega
    · have h0 : countKey [p] k = 0 := by
        rw [countKey_eq_zero_iff]
        simp only [List.map_cons, List.map_nil, List.mem_singleton]
        exact fun he => hp he.symm
      have hr := ih hnd.2
      omega

/-- Under unique keys, a dict assignment leaves exactly one entry with the
assigned key. -/
theorem countKey_dictSet_self (h : Headers) (k v : String)
    (hnd : (h.map Prod.fst).Nodup) : countKey (dictSet h k v) k = 1 := by
  unfold dictSet
  split_ifs with hc
  · rw [countKey_replace h k v k]
    have hmem : k ∈ h.map Prod.fst := (contains_mem_iff _ _).mp hc
    have hpos : countKey h k ≠ 0 := by
      rw [ne_eq, countKey_eq_zero_iff]
      simpa using hmem
    have hle := countKey_le_one h k hnd
    omega
  · have hz : countKey h k = 0 := by
      rw [countKey_eq_zero_iff]
      intro hm
      exact hc ((contains_mem_iff _ _).mpr hm)
    rw [countKey_append, hz]
    simp [countKey]

/-- Unique keys are preserved by a dict assignment. -/
theorem keysNodup_dictSet (h : Headers) (k v : String)
    (hnd : (h.map Prod.fst).Nodup) : ((dictSet h k v).map Prod.fst).Nodup := by
  rw [keys_dictSet]
  split_ifs with hc
  · exact hnd
  · rw [List.nodup_append]
    refine ⟨hnd, by simp, ?_⟩
    intro a ha hb
    simp only [List.mem_singleton] at hb
    subst hb
    exact hc ((contains_mem_iff _ _).mpr ha)

/-- Unique keys are preserved by a setDefault. -/
theorem keysNodup_setDefault (h : Headers) (k v : String)
    (hnd : (h.map Prod.fst).Nodup) : ((setDefault h k v).map Prod.fst).Nodup := by
  rw [keys_setDefault]
  split_ifs with hc
  · exact hnd
  · rw [List.nodup_append]
    refine ⟨hnd, by simp, ?_⟩
    intro a ha hb
    simp only [List.mem_singleton] at hb
    subst hb
    exact hc ((contains_mem_iff _ _).mpr ha)

/-- Lookup of a key other than Content-Type passes through the body
encoding stage. -/
theorem lookup_encode_ne (j : Option JsonVal) (d : Option DataArg) (h : Headers)
    (k : String) (hk : k ≠ "Content-Type") :
    lookupH (encodeBodyHeaders j d h).2 k = lookupH h k := by
  unfold encodeBodyHeaders
  cases j with
  | some v => exact lookup_dictSet_ne h "Content-Type" k _ hk
  | none =>
    cases d with
    | none => rfl
    | some da =>
      cases da with
      | dict ps => exact lookup_dictSet_ne h "Content-Type" k _ hk
      | str s => rfl
      | bytes b => rfl

/-- Key count of a key other than Content-Type passes through the body
encoding stage. -/
theorem countKey_encode_ne (j : Option JsonVal) (d : Option DataArg) (h : Headers)
    (k : String) (hk : k ≠ "Content-Type") :
    countKey (encodeBodyHeaders j d h).2 k = countKey h k := by
  unfold encodeBodyHeaders
  cases j with
  | some v => exact countKey_dictSet_ne h "Content-Type" k _ hk
  | none =>
    cases d with
    | none => rfl
    | some da =>
      cases da with
      | dict ps => exact countKey_dictSet_ne h "Content-Type" k _ hk
      | str s => rfl
      | bytes b => rfl

/-- Unique keys are preserved by the body encoding stage. -/
theorem keysNodup_encode (j : Option JsonVal) (d : Option DataArg) (h : Headers)
    (hnd : (h.map Prod.fst).Nodup) :
    (((encodeBodyHeaders j d h).2).map Prod.fst).Nodup := by
  unfold encodeBodyHeaders
  cases j with
  | some v => exact keysNodup_dictSet h "Content-Type" _ hnd
  | none =>
    cases d with
    | none => exact hnd
    | some da =>
      cases da with
      | dict ps => exact keysNodup_dictSet h "Content-Type" _ hnd
      | str s => exact hnd
      | bytes b => exact hnd

/-- Lookup of a key other than Content-Length passes through the
Content-Length stage. -/
theorem lookup_finalizeCL_ne (h : Headers) (body : Option (List Nat)) (k : String)
    (hk : k ≠ "Content-Length") :
    lookupH (finalizeCL h body) k = lookupH h k := by
  unfold finalizeCL
  cases body with
  | none => rfl
  | some b =>
    dsimp only
    split_ifs with hb
    · exact lookup_dictSet_ne h "Content-Length" k _ hk
    · rfl

/-- Content-Length stage on an absent or empty body leaves the headers
alone. -/
theorem finalizeCL_falsy (h : Headers) (body : Option (List Nat))
    (hb : body = none ∨ body = some []) : finalizeCL h body = h := by
  rcases hb with hb | hb <;> subst hb <;> simp [finalizeCL]

/-- Content-Length stage on a non-empty body is the dict assignment of the
byte length. -/
theorem finalizeCL_truthy (h : Headers) (b : List Nat) (hb : b ≠ []) :
    finalizeCL h (some b) = dictSet h "Content-Length" (toString b.length) := by
  unfold finalizeCL
  dsimp only
  rw [if_pos hb]

/-- C3 counterexample: a request to an http URL with explicit port 443
gets Host example.com with the port omitted, although 443 is not the
default port of the http scheme (which is 80).  The source omits the port
whenever it is 80 or 443, regardless of scheme, refuting the claimed
iff with the scheme default. -/
theorem c3_counterexample :
    (requestPlan (SessionState.mk false [] [] [] true 30) "GET"
        (ParsedUrl.mk "http" (some "example.com") (some 443) "/" "")
        (RequestArgs.mk none [] none none) none).map
        (fun p => lookupH p.reqHeaders "Host") = .ok (some "example.com") ∧
    effectivePort (ParsedUrl.mk "http" (some "example.com") (some 443) "/" "") = 443 ∧
    defaultPort "http" = 80 :=
  ⟨rfl, rfl, rfl⟩

/-- C3 amended: when the caller supplies no Host header, the Host header
put on the wire is the bare host iff the port is 80 or 443 (regardless of
the scheme), and host colon port otherwise. -/
theorem c3_host_header (s : SessionState) (m : String) (u : ParsedUrl)
    (a : RequestArgs) (v : Option Bool) (host : String) (port : Nat)
    (hclosed : s.closed = false)
    (hhost : u.hostname = some host)
    (hport : effectivePort u = port)
    (hHost : lookupH (mergeHeaders s.defaultHeaders a.headers) "Host" = none) :
    ∃ plan, requestPlan s m u a v = .ok plan ∧
      lookupH plan.reqHeaders "Host" = some (hostHeaderValue host port) ∧
      (hostHeaderValue host port = host ↔ (port = 80 ∨ port = 443)) ∧
      (¬ (port = 80 ∨ port = 443) →
        hostHeaderValue host port = host ++ ":" ++ toString port) := by
  unfold requestPlan
  rw [if_neg (by simp [hclosed])]
  refine ⟨_, rfl, ?_, ?_, ?_⟩
  · dsimp only
    rw [hport]
    simp only [hhost, Option.getD_some]
    rw [lookup_finalizeCL_ne _ _ _ (by decide), lookup_encode_ne _ _ _ _ (by decide)]
    unfold assembleHeaders
    rw [lookup_setDefault_ne _ _ _ _ (by decide), lookup_setDefault_ne _ _ _ _ (by decide),
      lookup_setDefault_ne _ _ _ _ (by decide), lookup_setDefault_ne _ _ _ _ (by decide),
      lookup_setDefault_of_none _ _ _ hHost]
  · constructor
    · intro heq
      by_contra hin
      have hne : hostHeaderValue host port = host ++ ":" ++ toString port := by
        unfold hostHeaderValue
        rw [if_neg hin]
      rw [hne] at heq
      have hlen := congrArg String.length heq
      rw [String.length_append, String.length_append] at hlen
      have h1 : (":" : String).length = 1 := rfl
      omega
    · intro hp
      unfold hostHeaderValue
      rw [if_pos hp]
  · intro hin
    unfold hostHeaderValue
    rw [if_neg hin]

/-- Witness for C3 amended at a non-default port: Host is h:8443. -/
theorem c3_witness :
    ∃ plan, requestPlan (SessionState.mk false [] [] [] true 30) "GET"
        (ParsedUrl.mk "https" (some "h") (some 8443) "/" "")
        (RequestArgs.mk none [] none none) none = .ok plan ∧
      lookupH plan.reqHeaders "Host" = some (hostHeaderValue "h" 8443) ∧
      (hostHeaderValue "h" 8443 = "h" ↔ (8443 = 80 ∨ 8443 = 443)) ∧
      (¬ (8443 = 80 ∨ 8443 = 443) →
        hostHeaderValue "h" 8443 = "h" ++ ":" ++ toString 8443) :=
  c3_host_header (SessionState.mk false [] [] [] true 30) "GET"
    (ParsedUrl.mk "https" (some "h") (some 8443) "/" "")
    (RequestArgs.mk none [] none none) none "h" 8443 rfl rfl rfl rfl

/-- C6 counterexample: with data set to the empty string the encoded body
is 0 bytes (a body was set), yet no Content-Length header is sent, because
the source guards the header with Python truthiness of the body.  This
refutes the claim that a request whose encoded body is N bytes carries
Content-Length N for N = 0. -/
theorem c6_counterexample :
    (requestPlan (SessionState.mk false [] [] [] true 30) "POST"
        (ParsedUrl.mk "http" (some "h") none "/" "")
        (RequestArgs.mk none [] none (some (DataArg.str ""))) none).map
        (fun p => (p.body, countKey p.reqHeaders "Content-Length")) =
      .ok (some [], 0) :=
  rfl

/-- C6 amended: when neither the session defaults nor the per-call headers
carry a Content-Length and the encoded body is absent or empty, no
Content-Length header is sent; when the encoded body has N bytes with
N positive, Content-Length N is sent exactly once (assuming the merged
caller headers have unique keys, as Python dicts do). -/
theorem c6_content_length (s : SessionState) (m : String) (u : ParsedUrl)
    (a : RequestArgs) (v : Option Bool)
    (hclosed : s.closed = false)
    (hnd : ((mergeHeaders s.defaultHeaders a.headers).map Prod.fst).Nodup) :
    ∃ plan, requestPlan s m u a v = .ok plan ∧
      (countKey (mergeHeaders s.defaultHeaders a.headers) "Content-Length" = 0 →
        (plan.body = none ∨ plan.body = some []) →
        countKey plan.reqHeaders "Content-Length" = 0) ∧
      (∀ b, plan.body = some b → b ≠ [] →
        countKey plan.reqHeaders "Content-Length" = 1 ∧
        lookupH plan.reqHeaders "Content-Length" = some (toString b.length)) := by
  unfold requestPlan
  rw [if_neg (by simp [hclosed])]
  refine ⟨_, rfl, ?_, ?_⟩
  · intro hz hempty
    dsimp only at hempty ⊢
    rw [finalizeCL_falsy _ _ hempty]
    rw [countKey_encode_ne _ _ _ _ (by decide)]
    unfold assembleHeaders
    rw [countKey_setDefault_ne _ _ _ _ (by decide), countKey_setDefault_ne _ _ _ _ (by decide),
      countKey_setDefault_ne _ _ _ _ (by decide), countKey_setDefault_ne _ _ _ _ (by decide),
      countKey_setDefault_ne _ _ _ _ (by decide)]
    exact hz
  · intro b hb hbne
    dsimp only at hb ⊢
    rw [hb, finalizeCL_truthy _ b hbne]
    constructor
    · apply countKey_dictSet_self
      apply keysNodup_encode
      unfold assembleHeaders
      apply keysNodup_setDefault
      apply keysNodup_setDefault
      apply keysNodup_setDefault
      apply keysNodup_setDefault
      apply keysNodup_setDefault
      exact hnd
    · exact lookup_dictSet_self _ _ _

/-- Witness for C6 amended: a two-byte body yields Content-Length 2 sent
once. -/
theorem c6_witness :
    ∃ plan, requestPlan (SessionState.mk false [] [] [] true 30) "POST"
        (ParsedUrl.mk "http" (some "h") none "/" "")
        (RequestArgs.mk none [] none (some (DataArg.bytes [7, 8]))) none = .ok plan ∧
      (countKey (mergeHeaders [] none) "Content-Length" = 0 →
        (plan.body = none ∨ plan.body = some []) →
        countKey plan.reqHeaders "Content-Length" = 0) ∧
      (∀ b, plan.body = some b → b ≠ [] →
        countKey plan.reqHeaders "Content-Length" = 1 ∧
        lookupH plan.reqHeaders "Content-Length" = some (toString b.length)) :=
  c6_content_length (SessionState.mk false [] [] [] true 30) "POST"
    (ParsedUrl.mk "http" (some "h") none "/" "")
    (RequestArgs.mk none [] none (some (DataArg.bytes [7, 8]))) none rfl
    (by simp [mergeHeaders])

end Arequest
